import Mathlib

/-
Formal model of the `us-accidents-risk` repository's core logic:
the `RiskAnalyzer` aggregation queries (src/accidents/analyzer.py) and the
`DataLoader` validation / loading state (src/accidents/data_loader.py).

Rows of the accidents table are modelled with the five key columns the
analyses reference (`ID`, `Start_Time`, `State`, `Severity`,
`Weather_Condition`); each is nullable, matching the CSV-inferred schema.
Timestamps carry the extractable components the queries use
(year, month, hour, day-of-week); `EXTRACT` on a genuine timestamp always
yields a month in 1..12, an hour in 0..23 and a dow in 0..6, which the
`Fin` fields encode.  SQL `AVG` is modelled exactly over `ℚ`
(sum of the non-null values divided by their number, `none` when all are
null), and SQL `GROUP BY` as grouping in first-occurrence order followed by
the query's `ORDER BY` as a stable insertion sort.
-/

/-- A start timestamp, reduced to the components the queries extract.
`monthIx.val + 1` is the calendar month (1..12), `hour.val` the hour of day
(0..23), `dow.val` the day of week (0 = Sunday .. 6 = Saturday, DuckDB's
`EXTRACT(dow ...)` convention). -/
structure Timestamp where
  year : Int
  monthIx : Fin 12
  hour : Fin 24
  dow : Fin 7
deriving DecidableEq, Repr

/-- One row of the `accidents` table, restricted to the key columns the
analyzer and loader reference.  Every column is nullable. -/
structure Row where
  id : Option String
  start_Time : Option Timestamp
  state : Option String
  severity : Option Int
  weather_Condition : Option String
deriving DecidableEq, Repr

/-- A SQL value as it appears in a grouping key. -/
inductive Value where
  | null : Value
  | str : String → Value
  | int : Int → Value
  | ts : Timestamp → Value
deriving DecidableEq, Repr

/-- The source schema's key columns (the columns of `Row`). -/
def schema : List String := ["ID", "Start_Time", "State", "Severity", "Weather_Condition"]

/-- Column access by name; `none` means the column does not exist in the
schema (a reference to it makes the query fail at binding time), while
`some .null` is a NULL value in an existing column. -/
def getCol (r : Row) (c : String) : Option Value :=
  if c = "ID" then some (match r.id with | some s => .str s | none => .null)
  else if c = "Start_Time" then some (match r.start_Time with | some t => .ts t | none => .null)
  else if c = "State" then some (match r.state with | some s => .str s | none => .null)
  else if c = "Severity" then some (match r.severity with | some n => .int n | none => .null)
  else if c = "Weather_Condition" then
    some (match r.weather_Condition with | some s => .str s | none => .null)
  else none

/-! ### Grouping

SQL `GROUP BY` over a list of rows: one group per distinct key, in
first-occurrence order, each group holding its rows in source order. -/

/-- Structural worker for `groupByKey`; `fuel` bounds the recursion depth
(it is called with the list's length, which suffices because each
recursive call filters at least the head away). -/
def groupByKeyAux {α K : Type} [DecidableEq K] (key : α → K) : Nat → List α → List (K × List α)
  | _, [] => []
  | 0, _ :: _ => []
  | fuel + 1, a :: l =>
    (key a, a :: l.filter (fun b => decide (key b = key a))) ::
      groupByKeyAux key fuel (l.filter (fun b => ! decide (key b = key a)))

def groupByKey {α K : Type} [DecidableEq K] (key : α → K) (l : List α) :
    List (K × List α) :=
  groupByKeyAux key l.length l

theorem groupByKeyAux_fuel_irrel {α K : Type} [DecidableEq K] (key : α → K) :
    ∀ (fuel₁ fuel₂ : Nat) (l : List α), l.length ≤ fuel₁ → l.length ≤ fuel₂ →
      groupByKeyAux key fuel₁ l = groupByKeyAux key fuel₂ l := by
  intro fuel₁
  induction fuel₁ with
  | zero =>
    intro fuel₂ l hl₁ hl₂
    match l with
    | [] => cases fuel₂ <;> rfl
    | a :: l => simp at hl₁
  | succ fuel ih =>
    intro fuel₂ l hl₁ hl₂
    match l with
    | [] => cases fuel₂ <;> rfl
    | a :: l =>
      match fuel₂ with
      | 0 => simp at hl₂
      | fuel₂' + 1 =>
        have hf := List.length_filter_le (fun b => ! decide (key b = key a)) l
        simp only [List.length_cons, Nat.succ_le_succ_iff] at hl₁ hl₂
        show _ :: groupByKeyAux key fuel _ = _ :: groupByKeyAux key fuel₂' _
        rw [ih fuel₂' _ (by omega) (by omega)]

theorem groupByKey_cons {α K : Type} [DecidableEq K] (key : α → K) (a : α) (l : List α) :
    groupByKey key (a :: l) =
      (key a, a :: l.filter (fun b => decide (key b = key a))) ::
        groupByKey key (l.filter (fun b => ! decide (key b = key a))) := by
  show groupByKeyAux key (l.length + 1) (a :: l) = _
  rw [groupByKeyAux]
  rw [groupByKeyAux_fuel_irrel key l.length _ _ (List.length_filter_le _ l) le_rfl]
  rfl

/-- Induction principle mirroring `groupByKey`'s recursion structure. -/
theorem groupByKey_rec {α K : Type} [DecidableEq K] (key : α → K)
    (motive : List α → Prop) (hnil : motive [])
    (hcons : ∀ (a : α) (l : List α),
      motive (l.filter (fun b => ! decide (key b = key a))) → motive (a :: l)) :
    ∀ l, motive l := by
  have hstrong : ∀ (n : Nat) (l : List α), l.length ≤ n → motive l := by
    intro n
    induction n with
    | zero =>
      intro l hl
      match l with
      | [] => exact hnil
      | a :: l => simp at hl
    | succ n ih =>
      intro l hl
      match l with
      | [] => exact hnil
      | a :: l =>
        refine hcons a l (ih _ ?_)
        have := List.length_filter_le (fun b => ! decide (key b = key a)) l
        simp only [List.length_cons, Nat.succ_le_succ_iff] at hl
        omega
  exact fun l => hstrong l.length l le_rfl

theorem groupByKey_char {α K : Type} [DecidableEq K] (key : α → K) (l : List α) :
    ∀ p ∈ groupByKey key l,
      p.2 = l.filter (fun b => decide (key b = p.1)) ∧ ∃ a ∈ l, key a = p.1 := by
  induction l using groupByKey_rec key with
  | hnil => intro p hp; simp [groupByKey, groupByKeyAux] at hp
  | hcons a l ih =>
    intro p hp
    rw [groupByKey_cons] at hp
    rcases List.mem_cons.mp hp with h | h
    · subst h
      refine ⟨?_, a, List.mem_cons_self a l, rfl⟩
      simp [List.filter_cons]
    · obtain ⟨h1, b, hb, hkb⟩ := ih p h
      have hbl : b ∈ l ∧ (!decide (key b = key a)) = true := List.mem_filter.mp hb
      have hne : p.1 ≠ key a := by
        intro hcontra
        have := hbl.2
        simp [hkb, hcontra] at this
      have hane : ¬ (key a = p.1) := fun hc => hne hc.symm
      constructor
      · rw [h1, List.filter_filter]
        have hstep : List.filter (fun b => decide (key b = p.1)) (a :: l)
            = List.filter (fun b => decide (key b = p.1)) l := by
          simp [List.filter_cons, hane]
        rw [hstep]
        apply List.filter_congr
        intro x _
        by_cases hx : key x = p.1
        · simp [hx, hne, show key x ≠ key a from fun hc => hane (hc ▸ hx)]
        · simp [hx]
      · exact ⟨b, List.mem_cons_of_mem a hbl.1, hkb⟩

theorem groupByKey_keys_nodup {α K : Type} [DecidableEq K] (key : α → K) (l : List α) :
    ((groupByKey key l).map Prod.fst).Nodup := by
  induction l using groupByKey_rec key with
  | hnil => simp [groupByKey, groupByKeyAux]
  | hcons a l ih =>
    rw [groupByKey_cons]
    simp only [List.map_cons, List.nodup_cons]
    refine ⟨?_, ih⟩
    intro hmem
    obtain ⟨p, hp, hfst⟩ := List.mem_map.mp hmem
    obtain ⟨_, b, hb, hkb⟩ := groupByKey_char key _ p hp
    have hbl : b ∈ l ∧ (!decide (key b = key a)) = true := List.mem_filter.mp hb
    have := hbl.2
    simp [hkb, hfst] at this

theorem groupByKey_covers {α K : Type} [DecidableEq K] (key : α → K) (l : List α) :
    ∀ a ∈ l, ∃ p ∈ groupByKey key l, p.1 = key a := by
  induction l using groupByKey_rec key with
  | hnil => intro a ha; simp at ha
  | hcons a l ih =>
    intro x hx
    rw [groupByKey_cons]
    rcases List.mem_cons.mp hx with h | h
    · subst h; exact ⟨_, List.mem_cons_self _ _, rfl⟩
    · by_cases hk : key x = key a
      · exact ⟨_, List.mem_cons_self _ _, hk.symm⟩
      · obtain ⟨p, hp, hfst⟩ := ih x (List.mem_filter.mpr ⟨h, by simp [hk]⟩)
        exact ⟨p, List.mem_cons_of_mem _ hp, hfst⟩

theorem groupByKey_sum_length {α K : Type} [DecidableEq K] (key : α → K) (l : List α) :
    ((groupByKey key l).map (fun p => p.2.length)).sum = l.length := by
  induction l using groupByKey_rec key with
  | hnil => simp [groupByKey, groupByKeyAux]
  | hcons a l ih =>
    rw [groupByKey_cons]
    simp only [List.map_cons, List.sum_cons, List.length_cons, ih]
    have := List.length_eq_length_filter_add (l := l) (fun b => decide (key b = key a))
    omega

theorem groupByKey_groups_ne_nil {α K : Type} [DecidableEq K] (key : α → K) (l : List α) :
    ∀ p ∈ groupByKey key l, p.2 ≠ [] := by
  intro p hp
  obtain ⟨hfilter, b, hb, hkb⟩ := groupByKey_char key l p hp
  intro hnil
  have : b ∈ p.2 := hfilter ▸ List.mem_filter.mpr ⟨hb, by simp [hkb]⟩
  simp [hnil] at this

/-! ### Ordering relations used by the queries' `ORDER BY` clauses -/

/-- Ascending order on a measure. -/
def ascBy {α β : Type} [LinearOrder β] (f : α → β) (a b : α) : Prop := f a ≤ f b

/-- Descending order on a measure. -/
def descBy {α β : Type} [LinearOrder β] (f : α → β) (a b : α) : Prop := f b ≤ f a

/-- Lexicographic: first measure ascending, second measure descending. -/
def lexAscDesc {α β γ : Type} [LinearOrder β] [LinearOrder γ] (f : α → β) (g : α → γ)
    (a b : α) : Prop :=
  f a < f b ∨ (f a = f b ∧ g b ≤ g a)

instance {α β : Type} [LinearOrder β] (f : α → β) : DecidableRel (ascBy f) :=
  fun a b => inferInstanceAs (Decidable (f a ≤ f b))

instance {α β : Type} [LinearOrder β] (f : α → β) : IsTotal α (ascBy f) :=
  ⟨fun a b => le_total (f a) (f b)⟩

instance {α β : Type} [LinearOrder β] (f : α → β) : IsTrans α (ascBy f) :=
  ⟨fun _ _ _ hab hbc => le_trans hab hbc⟩

instance {α β : Type} [LinearOrder β] (f : α → β) : DecidableRel (descBy f) :=
  fun a b => inferInstanceAs (Decidable (f b ≤ f a))

instance {α β : Type} [LinearOrder β] (f : α → β) : IsTotal α (descBy f) :=
  ⟨fun a b => (le_total (f b) (f a)).imp id id⟩

instance {α β : Type} [LinearOrder β] (f : α → β) : IsTrans α (descBy f) :=
  ⟨fun _ _ _ hab hbc => le_trans hbc hab⟩

instance {α β γ : Type} [LinearOrder β] [LinearOrder γ] (f : α → β) (g : α → γ) :
    DecidableRel (lexAscDesc f g) :=
  fun x y => inferInstanceAs (Decidable (f x < f y ∨ (f x = f y ∧ g y ≤ g x)))

instance {α β γ : Type} [LinearOrder β] [LinearOrder γ] (f : α → β) (g : α → γ) :
    IsTotal α (lexAscDesc f g) := by
  refine ⟨fun a b => ?_⟩
  rcases lt_trichotomy (f a) (f b) with h | h | h
  · exact Or.inl (Or.inl h)
  · rcases le_total (g b) (g a) with hg | hg
    · exact Or.inl (Or.inr ⟨h, hg⟩)
    · exact Or.inr (Or.inr ⟨h.symm, hg⟩)
  · exact Or.inr (Or.inl h)

instance {α β γ : Type} [LinearOrder β] [LinearOrder γ] (f : α → β) (g : α → γ) :
    IsTrans α (lexAscDesc f g) := by
  refine ⟨fun a b c hab hbc => ?_⟩
  rcases hab with h1 | ⟨h1, h1g⟩ <;> rcases hbc with h2 | ⟨h2, h2g⟩
  · exact Or.inl (lt_trans h1 h2)
  · exact Or.inl (h2 ▸ h1)
  · exact Or.inl (h1 ▸ h2)
  · exact Or.inr ⟨h1.trans h2, le_trans h2g h1g⟩

/-! ### Aggregates -/

/-- SQL `AVG(Severity)` over a group: null severities are ignored; the
average of no values is NULL. -/
def avgSeverity (g : List Row) : Option ℚ :=
  let sevs := g.filterMap (fun r => r.severity)
  if sevs.length = 0 then none
  else some ((sevs.map (fun n => (n : ℚ))).sum / (sevs.length : ℚ))

/-- `EXTRACT(year FROM Start_Time)` (0 is never reached: rows are filtered
to non-null timestamps before it is used). -/
def yearOf (r : Row) : Int :=
  match r.start_Time with
  | some t => t.year
  | none => 0

/-- `EXTRACT(month FROM Start_Time)`, in 1..12. -/
def monthOf (r : Row) : Nat :=
  match r.start_Time with
  | some t => t.monthIx.val + 1
  | none => 0

/-- `EXTRACT(hour FROM Start_Time)`, in 0..23. -/
def hourOf (r : Row) : Nat :=
  match r.start_Time with
  | some t => t.hour.val
  | none => 0

/-- `EXTRACT(dow FROM Start_Time)`, 0 = Sunday .. 6 = Saturday. -/
def dowOf (r : Row) : Nat :=
  match r.start_Time with
  | some t => t.dow.val
  | none => 0

/-! ### `RiskAnalyzer.compute_risk` -/

/-- A grouping column of `compute_risk`: the derived year/month/hour
fields or a named source column. -/
inductive GroupCol where
  | year : GroupCol
  | month : GroupCol
  | hour : GroupCol
  | col : String → GroupCol
deriving DecidableEq, Repr

/-- The grouping-column list `compute_risk` builds (analyzer.py lines
61-70): year first, then the caller's levels, then `Weather_Condition`
when requested and not already present, then month and hour when time is
requested. -/
def buildGroupCols (levels : List String) (include_weather include_time : Bool) :
    List GroupCol :=
  ([GroupCol.year] ++ levels.map GroupCol.col)
    ++ (if include_weather && !(levels.contains "Weather_Condition")
        then [GroupCol.col "Weather_Condition"] else [])
    ++ (if include_time then [GroupCol.month, GroupCol.hour] else [])

/-- Value of one grouping column on a row. -/
def evalGroupCol (r : Row) : GroupCol → Value
  | .year =>
    match r.start_Time with
    | some t => .int t.year
    | none => .null
  | .month =>
    match r.start_Time with
    | some t => .int (t.monthIx.val + 1)
    | none => .null
  | .hour =>
    match r.start_Time with
    | some t => .int t.hour.val
    | none => .null
  | .col c => (getCol r c).getD .null

/-- The WHERE clause shared by `compute_risk` and
`compute_state_risk_rates`: non-null timestamp, non-null non-empty state,
non-null severity. -/
def mainFilter (r : Row) : Bool :=
  decide (r.start_Time ≠ none ∧ r.state ≠ none ∧ r.state ≠ some "" ∧ r.severity ≠ none)

/-- The binder error DuckDB raises when a referenced column does not
exist, carrying the offending column name. -/
structure QueryError where
  column : String
deriving DecidableEq, Repr

/-- One output row of `compute_risk`: the grouping-key values in column
order, the group's row count, and its mean severity. -/
structure RiskRow where
  key : List Value
  accident_count : Nat
  avg_severity : Option ℚ
deriving DecidableEq, Repr

/-- The year component of a `compute_risk` output row (its leading key
value). -/
def rowYear (o : RiskRow) : Int :=
  match o.key with
  | .int y :: _ => y
  | _ => 0

/-- `RiskAnalyzer.compute_risk`: fails at binding time when a requested
level is not a schema column; otherwise filters, groups by the built
column list, aggregates, and orders by year ascending then count
descending. -/
def compute_risk (rows : List Row) (levels : List String)
    (include_weather include_time : Bool) : Except QueryError (List RiskRow) :=
  match levels.find? (fun c => !(schema.contains c)) with
  | some c => .error ⟨c⟩
  | none =>
    let gc := buildGroupCols levels include_weather include_time
    .ok (List.insertionSort (lexAscDesc rowYear RiskRow.accident_count)
      ((groupByKey (fun r => gc.map (evalGroupCol r)) (rows.filter mainFilter)).map
        (fun p => ⟨p.1, p.2.length, avgSeverity p.2⟩)))

/-! ### `RiskAnalyzer.compute_state_risk_rates` -/

/-- One output row of `compute_state_risk_rates`. -/
structure SRow where
  year : Int
  state : String
  total_accidents : Nat
  severe_accidents : Nat
  severe_accident_rate : ℚ
deriving DecidableEq, Repr

/-- `CASE WHEN Severity >= 3 THEN 1 END` is non-null (counted). -/
def severeTest (r : Row) : Bool :=
  match r.severity with
  | some s => decide (3 ≤ s)
  | none => false

/-- `RiskAnalyzer.compute_state_risk_rates`: per (year, state) over the
filtered rows, total count, severe count and severe rate, ordered by year
ascending then total count descending. -/
def compute_state_risk_rates (rows : List Row) : List SRow :=
  List.insertionSort (lexAscDesc SRow.year SRow.total_accidents)
    ((groupByKey (fun r => (yearOf r, r.state.getD "")) (rows.filter mainFilter)).map
      (fun p =>
        ⟨p.1.1, p.1.2, p.2.length, (p.2.filter severeTest).length,
          ((p.2.filter severeTest).length * 100 : ℚ) / (p.2.length : ℚ)⟩))

/-! ### `RiskAnalyzer.compute_temporal_patterns` -/

/-- One output row of a temporal aggregation, keyed by `K`. -/
structure TRow (K : Type) where
  key : K
  accident_count : Nat
  avg_severity : Option ℚ
deriving DecidableEq, Repr

/-- The WHERE clause of all four temporal queries: only
`Start_Time IS NOT NULL`. -/
def tsFilter (r : Row) : Bool :=
  decide (r.start_Time ≠ none)

/-- The seasonal CASE expression (analyzer.py lines 171-176); months
outside 1..12 fall through to NULL. -/
def seasonOfMonth (m : Nat) : Option String :=
  if m = 12 ∨ m = 1 ∨ m = 2 then some "Winter"
  else if m = 3 ∨ m = 4 ∨ m = 5 then some "Spring"
  else if m = 6 ∨ m = 7 ∨ m = 8 then some "Summer"
  else if m = 9 ∨ m = 10 ∨ m = 11 then some "Fall"
  else none

/-- A temporal aggregation: filter to non-null timestamps, group by the
key, count and average severity per group. -/
def temporalAgg {K : Type} [DecidableEq K] (key : Row → K) (rows : List Row) :
    List (TRow K) :=
  (groupByKey key (rows.filter tsFilter)).map (fun p => ⟨p.1, p.2.length, avgSeverity p.2⟩)

/-- The four results of `compute_temporal_patterns`. -/
structure TemporalPatterns where
  hourly : List (TRow Nat)
  daily : List (TRow Nat)
  monthly : List (TRow Nat)
  seasonal : List (TRow (Option String))
deriving DecidableEq, Repr

/-- `RiskAnalyzer.compute_temporal_patterns`: hour / day-of-week / month
aggregations ordered by their key ascending, season aggregation ordered by
count descending. -/
def compute_temporal_patterns (rows : List Row) : TemporalPatterns where
  hourly := List.insertionSort (ascBy TRow.key) (temporalAgg hourOf rows)
  daily := List.insertionSort (ascBy TRow.key) (temporalAgg dowOf rows)
  monthly := List.insertionSort (ascBy TRow.key) (temporalAgg monthOf rows)
  seasonal :=
    List.insertionSort (descBy TRow.accident_count)
      (temporalAgg (fun r => seasonOfMonth (monthOf r)) rows)

/-! ### `RiskAnalyzer.compute_weather_risk` -/

/-- The WHERE clause of `compute_weather_risk`: non-null non-empty state
and weather condition, non-null severity (`Start_Time` is not filtered). -/
def weatherFilter (r : Row) : Bool :=
  decide (r.state ≠ none ∧ r.state ≠ some "" ∧
    r.weather_Condition ≠ none ∧ r.weather_Condition ≠ some "" ∧ r.severity ≠ none)

/-- A (state, weather) aggregate before window functions are applied. -/
structure WAgg where
  state : String
  weather : String
  accident_count : Nat
  avg_severity : Option ℚ
deriving DecidableEq, Repr

/-- One output row of `compute_weather_risk`. -/
structure WRow where
  state : String
  weather : String
  accident_count : Nat
  avg_severity : Option ℚ
  state_percentage : ℚ
  weather_rank : Nat
deriving DecidableEq, Repr

/-- The GROUP BY (State, Weather_Condition) aggregates of
`compute_weather_risk`. -/
def weatherAggs (rows : List Row) : List WAgg :=
  (groupByKey (fun r => (r.state.getD "", r.weather_Condition.getD ""))
      (rows.filter weatherFilter)).map
    (fun p => ⟨p.1.1, p.1.2, p.2.length, avgSeverity p.2⟩)

/-- `ROW_NUMBER() OVER (PARTITION BY State ORDER BY COUNT(*) DESC)` and
`COUNT(*) * 100.0 / SUM(COUNT(*)) OVER (PARTITION BY State)`: assign
sequential ranks (from `i`) and the percentage of `total` down a
partition already sorted by count descending. -/
def assignRanks (total : ℚ) : Nat → List WAgg → List WRow
  | _, [] => []
  | i, w :: l =>
    ⟨w.state, w.weather, w.accident_count, w.avg_severity,
      (w.accident_count * 100 : ℚ) / total, i⟩ :: assignRanks total (i + 1) l

/-- One state's block of `compute_weather_risk` output rows, ranked 1..k
by count descending. -/
def weatherRows (grp : List WAgg) : List WRow :=
  assignRanks (((grp.map WAgg.accident_count).sum : ℕ) : ℚ) 1
    (List.insertionSort (descBy WAgg.accident_count) grp)

/-- The per-state partitions of `compute_weather_risk`, in the output's
`ORDER BY State` order. -/
def weatherBlocks (rows : List Row) : List (String × List WRow) :=
  (List.insertionSort (ascBy (fun p : String × List WAgg => p.1))
      (groupByKey WAgg.state (weatherAggs rows))).map
    (fun p => (p.1, weatherRows p.2))

/-- `RiskAnalyzer.compute_weather_risk`: the per-state blocks flattened
(states ascending, counts descending within a state). -/
def compute_weather_risk (rows : List Row) : List WRow :=
  ((weatherBlocks rows).map Prod.snd).flatten

/-! ### `RiskAnalyzer.generate_summary_report` -/

/-- Chronological comparison of the model's timestamps (year, month,
hour lexicographically). -/
def tsLE (t u : Timestamp) : Bool :=
  decide (t.year < u.year ∨ (t.year = u.year ∧
    (t.monthIx.val < u.monthIx.val ∨
      (t.monthIx.val = u.monthIx.val ∧ t.hour.val ≤ u.hour.val))))

/-- `MIN(Start_Time)` over the non-null timestamps (NULL when none). -/
def tsMin (l : List Timestamp) : Option Timestamp :=
  l.foldr (fun t acc =>
    match acc with
    | none => some t
    | some u => some (if tsLE t u then t else u)) none

/-- `MAX(Start_Time)` over the non-null timestamps (NULL when none). -/
def tsMax (l : List Timestamp) : Option Timestamp :=
  l.foldr (fun t acc =>
    match acc with
    | none => some t
    | some u => some (if tsLE u t then t else u)) none

/-- The dictionary `generate_summary_report` returns. -/
structure SummaryReport where
  total_accidents : Nat
  date_range : Option Timestamp × Option Timestamp
  states_covered : Nat
  top_states : List (String × Nat)
  severity_distribution : List (Int × Nat × ℚ)
deriving DecidableEq, Repr

/-- `RiskAnalyzer.generate_summary_report`: total row count (no filter),
date span over non-null timestamps, distinct-state count, top 10 states by
count, and the severity distribution with percentage of all
non-null-severity rows. -/
def generate_summary_report (rows : List Row) : SummaryReport :=
  let stateRows := rows.filter (fun r => decide (r.state ≠ none ∧ r.state ≠ some ""))
  let sevRows := rows.filter (fun r => decide (r.severity ≠ none))
  { total_accidents := rows.length
    date_range :=
      (tsMin (rows.filterMap Row.start_Time), tsMax (rows.filterMap Row.start_Time))
    states_covered := ((stateRows.map (fun r => r.state.getD "")).dedup).length
    top_states :=
      (List.insertionSort (descBy (fun p : String × Nat => p.2))
        ((groupByKey (fun r => r.state.getD "") stateRows).map
          (fun p => (p.1, p.2.length)))).take 10
    severity_distribution :=
      List.insertionSort (ascBy (fun t : Int × Nat × ℚ => t.1))
        ((groupByKey (fun r => r.severity.getD 0) sevRows).map
          (fun p => (p.1, p.2.length, (p.2.length * 100 : ℚ) / (sevRows.length : ℚ)))) }

/-! ### `DataLoader` : validation (data_loader.py `validate_data`) -/

/-- The fixed key columns `validate_data` checks. -/
def keyColumns : List String := ["ID", "Start_Time", "State", "Severity", "Weather_Condition"]

/-- `"col" IS NULL OR "col" = ''` on a VARCHAR column: a NULL or an
empty string counts as missing.  (`validate_data` reaches this predicate
only on VARCHAR columns; on a BIGINT/TIMESTAMP column the `= ''`
comparison raises a Conversion Error before any row is tested.) -/
def colMissing (r : Row) (c : String) : Bool :=
  match getCol r c with
  | some .null => true
  | some (.str s) => decide (s = "")
  | some _ => false
  | none => false

/-- A column type as `read_csv_auto` infers it. -/
inductive ColType where
  | varchar : ColType
  | bigint : ColType
  | timestamp : ColType
deriving DecidableEq, Repr

/-- The type `read_csv_auto` infers for a key column: on a header-only
(zero-row) file every column is VARCHAR; on typed data `Start_Time` is a
TIMESTAMP and `Severity` a BIGINT, the other key columns VARCHAR. -/
def inferredType (c : String) (rows : List Row) : ColType :=
  if rows.isEmpty then .varchar
  else if c = "Start_Time" then .timestamp
  else if c = "Severity" then .bigint
  else .varchar

/-- A missing-value check for one key column. -/
structure MissingCheck where
  count : Nat
  percentage : ℚ
deriving DecidableEq, Repr

/-- The exception kinds `validate_data` can leak: the `ZeroDivisionError`
from `(missing / total_rows) * 100` on a zero-row table, and DuckDB's
Conversion Error from binding `"col" = ''` against a BIGINT/TIMESTAMP
column (the '' literal cannot be cast to the column type). -/
inductive ValError where
  | divisionByZero : ValError
  | conversionError : String → ValError
deriving DecidableEq, Repr

/-- The validation report `validate_data` builds. -/
structure ValidationReport where
  total_rows : Nat
  missing_values : List (String × MissingCheck)
  date_range : Option (Option Timestamp × Option Timestamp)
  severity_range : Option (Option Int × Option Int × Nat)
  unique_states : Option Nat
deriving DecidableEq, Repr

/-- One iteration of the missing-value loop for a present key column:
`SELECT COUNT(*) ... WHERE "col" IS NULL OR "col" = ''` followed by
`(missing / total_rows) * 100`.  On a BIGINT/TIMESTAMP column the query
itself raises a Conversion Error (DuckDB casts the '' literal to the
column type); on a VARCHAR column the count succeeds and the unguarded
division raises `ZeroDivisionError` when the table has no rows. -/
def missingCheck (c : String) (rows : List Row) : Except ValError MissingCheck :=
  match inferredType c rows with
  | .bigint => .error (.conversionError c)
  | .timestamp => .error (.conversionError c)
  | .varchar =>
    let m := (rows.filter (fun r => colMissing r c)).length
    if rows.length = 0 then .error .divisionByZero
    else .ok ⟨m, ((m : ℚ) / (rows.length : ℚ)) * 100⟩

/-- The `for col in key_columns` loop of `validate_data` (data_loader.py
lines 117-128): key columns absent from the schema are skipped, present
ones are checked in order, and the loop has no `try/except`, so the first
failing check aborts the whole validation. -/
def runMissingChecks (cols : List String) (rows : List Row) :
    List String → Except ValError (List (String × MissingCheck))
  | [] => .ok []
  | c :: cs =>
    if cols.contains c then
      match missingCheck c rows with
      | .error e => .error e
      | .ok m =>
        match runMissingChecks cols rows cs with
        | .error e => .error e
        | .ok rest => .ok ((c, m) :: rest)
    else runMissingChecks cols rows cs

/-- `DataLoader.validate_data` over a file whose inferred schema is
`cols` and whose data rows are `rows`: the unguarded missing-value loop
runs first and any exception it raises (division by zero on an empty
table, conversion error on a typed column) propagates; otherwise the
report is returned.  The date / severity / state summaries are each
wrapped in a `try/except` and reported as `None` when their column is
absent. -/
def validate_data (cols : List String) (rows : List Row) : Except ValError ValidationReport :=
  match runMissingChecks cols rows keyColumns with
  | .error e => .error e
  | .ok mv =>
    .ok
      { total_rows := rows.length
        missing_values := mv
        date_range :=
          if cols.contains "Start_Time" then
            some (tsMin (rows.filterMap Row.start_Time), tsMax (rows.filterMap Row.start_Time))
          else none
        severity_range :=
          if cols.contains "Severity" then
            some ((rows.filterMap Row.severity).min?,
              (rows.filterMap Row.severity).max?,
              ((rows.filterMap Row.severity).dedup).length)
          else none
        unique_states :=
          if cols.contains "State" then
            some (((rows.filterMap Row.state).filter (fun s => decide (s ≠ ""))).dedup.length)
          else none }

/-! ### `RiskAnalyzer` load-state machine
(analyzer.py `_ensure_data_loaded` / `close`, data_loader.py
`load_to_duckdb`) -/

/-- Loading failures (`load_to_duckdb` closes its fresh connection and
re-raises). -/
inductive LoadError where
  | loadError : LoadError
deriving DecidableEq, Repr

/-- The analyzer's mutable load state: its `conn` field and its
`_data_loaded` flag. -/
structure AnalyzerState where
  conn : Option Nat
  dataLoaded : Bool
deriving DecidableEq, Repr

/-- The state `__init__` leaves: `conn = None`, `_data_loaded = False`. -/
def initialAnalyzer : AnalyzerState :=
  ⟨none, false⟩

/-- `_ensure_data_loaded`, with `load` the outcome `load_to_duckdb`
would produce: when already loaded nothing happens; otherwise a
successful load stores the handle and sets the flag, and a failed load
propagates the error leaving the fields untouched. -/
def ensureDataLoaded (load : Except LoadError Nat) (s : AnalyzerState) :
    Except LoadError Unit × AnalyzerState :=
  if s.dataLoaded then (.ok (), s)
  else
    match load with
    | .ok h => (.ok (), ⟨some h, true⟩)
    | .error e => (.error e, s)

/-- `close`: when a connection exists, close it and clear the loaded
flag (the `conn` field itself is not cleared). -/
def closeAnalyzer (s : AnalyzerState) : AnalyzerState :=
  if s.conn.isSome then ⟨s.conn, false⟩ else s

/-! ### Concrete rows used by the evaluation theorems -/

deriving instance DecidableEq for Except

/-- A timestamp in year 2020 (January, midnight, Sunday). -/
def ts2020 : Timestamp := ⟨2020, 0, 0, 0⟩

/-- (year 2020, State="CA", Severity=2, Weather="Clear"). -/
def rowCA2 : Row := ⟨some "1", some ts2020, some "CA", some 2, some "Clear"⟩

/-- (year 2020, State="CA", Severity=4, Weather="Rain"). -/
def rowCA4 : Row := ⟨some "2", some ts2020, some "CA", some 4, some "Rain"⟩

/-- A row with a valid timestamp but NULL state, severity and weather. -/
def rowNullState : Row := ⟨some "3", some ts2020, none, none, none⟩

/-- Filtering a list by a predicate twice is the same as filtering once. -/
theorem filter_self_idem {α : Type} (p : α → Bool) (l : List α) :
    (l.filter p).filter p = l.filter p :=
  List.filter_eq_self.mpr (fun _ ha => List.of_mem_filter ha)

/-! ### Claim theorems -/

/-- Claim C6: on the two-row dataset (2020, CA, severity 2, Clear) and
(2020, CA, severity 4, Rain), `compute_risk(['State','Severity'],
include_weather=False, include_time=False)` returns exactly two rows keyed
(year, State, Severity), each with `accident_count = 1` and `avg_severity`
2 and 4 respectively, in input order (count-descending tie broken by input
order within year 2020). -/
theorem c6_concrete_two_rows :
    compute_risk [rowCA2, rowCA4] ["State", "Severity"] false false =
      .ok [⟨[.int 2020, .str "CA", .int 2], 1, some 2⟩,
           ⟨[.int 2020, .str "CA", .int 4], 1, some 4⟩] := by
  have h1 : avgSeverity [rowCA2] = some 2 := by
    norm_num [avgSeverity, rowCA2, List.filterMap_cons]
  have h2 : avgSeverity [rowCA4] = some 4 := by
    norm_num [avgSeverity, rowCA4, List.filterMap_cons]
  rw [← h1, ← h2]
  rfl

/-- Claim C7: the analyzer's load state is a one-way `unloaded → loaded`
transition: an operation on a loaded analyzer reuses the same handle
unchanged; the first operation on an unloaded analyzer stores the freshly
loaded handle; a failed load propagates its error and leaves the analyzer
unloaded with no handle; explicit close clears the loaded flag, after
which the next operation loads a fresh handle. -/
theorem c7_load_state_machine :
    ∀ (c : Option Nat) (h h' : Nat) (e : LoadError) (load : Except LoadError Nat),
      ensureDataLoaded load ⟨c, true⟩ = (.ok (), ⟨c, true⟩)
      ∧ ensureDataLoaded (.ok h) initialAnalyzer = (.ok (), ⟨some h, true⟩)
      ∧ ensureDataLoaded (.error e) initialAnalyzer = (.error e, initialAnalyzer)
      ∧ closeAnalyzer ⟨some h, true⟩ = ⟨some h, false⟩
      ∧ ensureDataLoaded (.ok h') ⟨some h, false⟩ = (.ok (), ⟨some h', true⟩) := by
  intro c h h' e load
  exact ⟨rfl, rfl, rfl, rfl, rfl⟩

/-- Claim C2 (counterexample): a row with NULL state and NULL severity but
a non-null timestamp is NOT excluded from `compute_temporal_patterns` —
the hourly aggregation counts it — refuting the claim that every
aggregation operation excludes rows with null/empty state or null
severity. -/
theorem c2_counterexample_null_state_counted :
    rowNullState.state = none ∧ rowNullState.severity = none ∧
      (compute_temporal_patterns [rowNullState]).hourly = [⟨0, 1, none⟩] := by
  decide

/-- Claim C2 (amended): each aggregation applies only its own WHERE
clause.  `compute_risk` and `compute_state_risk_rates` exclude exactly the
rows with null timestamp, null/empty state or null severity;
`compute_temporal_patterns` excludes only rows with null timestamp;
`compute_weather_risk` excludes exactly the rows with null/empty state,
null/empty weather or null severity (a null timestamp is kept); and the
summary report's total row count excludes nothing. -/
theorem c2_amended_per_operation_filters :
    ∀ (rows : List Row) (levels : List String) (iw it : Bool),
      compute_risk (rows.filter mainFilter) levels iw it = compute_risk rows levels iw it
      ∧ compute_state_risk_rates (rows.filter mainFilter) = compute_state_risk_rates rows
      ∧ compute_temporal_patterns (rows.filter tsFilter) = compute_temporal_patterns rows
      ∧ compute_weather_risk (rows.filter weatherFilter) = compute_weather_risk rows
      ∧ (generate_summary_report rows).total_accidents = rows.length := by
  intro rows levels iw it
  refine ⟨?_, ?_, ?_, ?_, rfl⟩
  · simp only [compute_risk, filter_self_idem]
  · simp only [compute_state_risk_rates, filter_self_idem]
  · simp only [compute_temporal_patterns, temporalAgg, filter_self_idem]
  · simp only [compute_weather_risk, weatherBlocks, weatherAggs, filter_self_idem]

/-- Claim C8: whenever the dimension list contains a name that is not a
schema column, `compute_risk` fails with a `QueryError` naming a missing
column from that list — the error is returned as-is, not caught or
translated. -/
theorem c8_unknown_column_query_error :
    ∀ (rows : List Row) (levels : List String) (iw it : Bool),
      (∃ c ∈ levels, c ∉ schema) →
      ∃ c, c ∈ levels ∧ c ∉ schema ∧ compute_risk rows levels iw it = .error ⟨c⟩ := by
  intro rows levels iw it h
  obtain ⟨c0, hc0, hns⟩ := h
  have hfind : (levels.find? (fun c => !(schema.contains c))).isSome := by
    rw [List.find?_isSome]
    exact ⟨c0, hc0, by simp [hns]⟩
  obtain ⟨c, hc⟩ := Option.isSome_iff_exists.mp hfind
  refine ⟨c, List.mem_of_find?_eq_some hc, ?_, ?_⟩
  · have hp := List.find?_some hc
    simpa using hp
  · unfold compute_risk
    rw [hc]

/-- Claim C8 witness: the dimension list `["State", "Wrong_Col"]` contains
a non-schema name, and the call fails with a `QueryError` naming it. -/
theorem c8_unknown_column_query_error_witness :
    (∃ c ∈ ["State", "Wrong_Col"], c ∉ schema) ∧
      ∃ c, c ∈ ["State", "Wrong_Col"] ∧ c ∉ schema ∧
        compute_risk [rowCA2] ["State", "Wrong_Col"] true true = .error ⟨c⟩ :=
  ⟨⟨"Wrong_Col", by decide, by decide⟩,
    c8_unknown_column_query_error [rowCA2] ["State", "Wrong_Col"] true true
      ⟨"Wrong_Col", by decide, by decide⟩⟩

/-- Claim C10: `validate_data` divides the missing count by the total row
count with no guard, so on a table with zero data rows whose schema still
has a key column it raises `ZeroDivisionError` instead of returning a
report. -/
theorem runMissingChecks_empty_table (cols : List String) :
    ∀ ks : List String, (∃ c ∈ ks, cols.contains c = true) →
      runMissingChecks cols [] ks = .error .divisionByZero := by
  intro ks
  induction ks with
  | nil => intro h; simp at h
  | cons k ks ih =>
    intro h
    by_cases hk : cols.contains k = true
    · unfold runMissingChecks
      rw [if_pos hk]
      have hmc : missingCheck k [] = .error .divisionByZero := rfl
      rw [hmc]
    · obtain ⟨c, hck, hcc⟩ := h
      have hcin : c ∈ ks := by
        rcases List.mem_cons.mp hck with hck2 | h2
        · subst hck2; exact absurd hcc hk
        · exact h2
      unfold runMissingChecks
      rw [if_neg hk]
      exact ih ⟨c, hcin, hcc⟩

theorem c10_empty_table_division_by_zero :
    ∀ (cols : List String) (rows : List Row),
      rows.length = 0 →
      (∃ c ∈ keyColumns, cols.contains c = true) →
      validate_data cols rows = .error .divisionByZero := by
  intro cols rows h0 hc
  have hrows : rows = [] := List.length_eq_zero.mp h0
  subst hrows
  unfold validate_data
  rw [runMissingChecks_empty_table cols keyColumns hc]

/-- Claim C10 witness: a header-only table whose schema has the `State`
key column makes `validate_data` raise the division error. -/
theorem c10_empty_table_division_by_zero_witness :
    ([] : List Row).length = 0 ∧ (∃ c ∈ keyColumns, ["State"].contains c = true) ∧
      validate_data ["State"] [] = .error .divisionByZero :=
  ⟨rfl, ⟨"State", by decide, by decide⟩,
    c10_empty_table_division_by_zero ["State"] [] rfl ⟨"State", by decide, by decide⟩⟩

/-- Claim C4: in every `compute_state_risk_rates` output row, the severe
count is the number of the (year, state) group's rows with severity ≥ 3,
the severe rate is severe-count × 100 / total-count, and consequently
severe ≤ total and the rate lies in [0, 100]. -/
theorem c4_state_risk_rate_bounds :
    ∀ (rows : List Row) (o : SRow), o ∈ compute_state_risk_rates rows →
      o.severe_accidents =
        (((rows.filter mainFilter).filter
            (fun r => decide ((yearOf r, r.state.getD "") = (o.year, o.state)))).filter
          severeTest).length
      ∧ o.severe_accident_rate = (o.severe_accidents * 100 : ℚ) / (o.total_accidents : ℚ)
      ∧ o.severe_accidents ≤ o.total_accidents
      ∧ 0 ≤ o.severe_accident_rate ∧ o.severe_accident_rate ≤ 100 := by
  intro rows o ho
  have ho' := (List.perm_insertionSort _ _).mem_iff.mp ho
  obtain ⟨p, hp, hmk⟩ := List.mem_map.mp ho'
  obtain ⟨hfil, a, ha, hka⟩ :=
    groupByKey_char (fun r => (yearOf r, r.state.getD "")) (rows.filter mainFilter) p hp
  have hne := groupByKey_groups_ne_nil (fun r => (yearOf r, r.state.getD ""))
    (rows.filter mainFilter) p hp
  have hpos : 0 < p.2.length := List.length_pos.mpr hne
  have hsle : (p.2.filter severeTest).length ≤ p.2.length := List.length_filter_le _ _
  subst hmk
  refine ⟨?_, rfl, hsle, ?_, ?_⟩
  · have hkey : (fun r => decide ((yearOf r, r.state.getD "") = (p.1.1, p.1.2)))
        = (fun r => decide ((yearOf r, r.state.getD "") = p.1)) := by
      funext r
      congr 1
    rw [hkey, ← hfil]
  · apply div_nonneg
    · positivity
    · positivity
  · rw [div_le_iff₀ (by exact_mod_cast hpos)]
    have hc : ((p.2.filter severeTest).length : ℚ) ≤ (p.2.length : ℚ) := by
      exact_mod_cast hsle
    nlinarith [hc]

/-- Claim C4 witness: on the one-row dataset `[rowCA2]` (severity 2), the
single output row (2020, CA) has total 1, severe 0, rate 0, and satisfies
all the bounds. -/
theorem c4_state_risk_rate_bounds_witness :
    (⟨2020, "CA", 1, 0, 0⟩ : SRow) ∈ compute_state_risk_rates [rowCA2]
    ∧ ((⟨2020, "CA", 1, 0, 0⟩ : SRow).severe_accidents =
        ((([rowCA2].filter mainFilter).filter
            (fun r => decide ((yearOf r, r.state.getD "") =
              ((⟨2020, "CA", 1, 0, 0⟩ : SRow).year, (⟨2020, "CA", 1, 0, 0⟩ : SRow).state)))).filter
          severeTest).length
      ∧ (⟨2020, "CA", 1, 0, 0⟩ : SRow).severe_accident_rate =
          ((⟨2020, "CA", 1, 0, 0⟩ : SRow).severe_accidents * 100 : ℚ) /
            ((⟨2020, "CA", 1, 0, 0⟩ : SRow).total_accidents : ℚ)
      ∧ (⟨2020, "CA", 1, 0, 0⟩ : SRow).severe_accidents ≤
          (⟨2020, "CA", 1, 0, 0⟩ : SRow).total_accidents
      ∧ 0 ≤ (⟨2020, "CA", 1, 0, 0⟩ : SRow).severe_accident_rate
      ∧ (⟨2020, "CA", 1, 0, 0⟩ : SRow).severe_accident_rate ≤ 100) := by
  have hval : ((((List.filter severeTest [rowCA2]).length : ℚ)) * 100) / (([rowCA2].length : ℕ) : ℚ)
      = 0 := by
    norm_num [severeTest, rowCA2, List.filter_cons]
  have hmem : (⟨2020, "CA", 1, 0, 0⟩ : SRow) ∈ compute_state_risk_rates [rowCA2] := by
    have hcomp : compute_state_risk_rates [rowCA2] =
        [⟨2020, "CA", 1, 0,
          ((((List.filter severeTest [rowCA2]).length : ℚ)) * 100) / (([rowCA2].length : ℕ) : ℚ)⟩] :=
      rfl
    rw [hval] at hcomp
    simp [hcomp]
  exact ⟨hmem, c4_state_risk_rate_bounds [rowCA2] _ hmem⟩

/-- Claim C1: `compute_risk` builds its grouping-key list as year first,
then the caller's dimensions in order, then `Weather_Condition` iff
weather is requested and not already present, then month and hour (in
that order) iff time is requested; it groups the WHERE-filtered rows by
exactly this list, reporting a count and a mean severity per group (each
group key occurring once, every filtered row covered), and the output is
ordered by year ascending then count descending within a year. -/
theorem c1_compute_risk_grouping :
    ∀ (rows : List Row) (levels : List String) (iw it : Bool),
      (∀ c ∈ levels, c ∈ schema) →
      ∃ out, compute_risk rows levels iw it = .ok out
        ∧ buildGroupCols levels iw it =
            [GroupCol.year] ++ levels.map GroupCol.col
              ++ (if iw = true ∧ "Weather_Condition" ∉ levels
                  then [GroupCol.col "Weather_Condition"] else [])
              ++ (if it = true then [GroupCol.month, GroupCol.hour] else [])
        ∧ (out.map RiskRow.key).Nodup
        ∧ (∀ o ∈ out,
            o.accident_count = ((rows.filter mainFilter).filter
                (fun r => decide ((buildGroupCols levels iw it).map (evalGroupCol r) = o.key))).length
            ∧ o.avg_severity = avgSeverity ((rows.filter mainFilter).filter
                (fun r => decide ((buildGroupCols levels iw it).map (evalGroupCol r) = o.key)))
            ∧ ∃ r ∈ rows.filter mainFilter,
                (buildGroupCols levels iw it).map (evalGroupCol r) = o.key)
        ∧ (∀ r ∈ rows.filter mainFilter,
            ∃ o ∈ out, o.key = (buildGroupCols levels iw it).map (evalGroupCol r))
        ∧ out.Pairwise (fun a b =>
            rowYear a < rowYear b ∨ (rowYear a = rowYear b ∧ b.accident_count ≤ a.accident_count)) := by
  intro rows levels iw it hlv
  have hfind : levels.find? (fun c => !(schema.contains c)) = none := by
    rw [List.find?_eq_none]
    intro c hc
    simp [hlv c hc]
  unfold compute_risk
  rw [hfind]
  refine ⟨_, rfl, ?_, ?_, ?_, ?_, ?_⟩
  · cases iw <;> cases it <;> by_cases hw : "Weather_Condition" ∈ levels <;>
      simp [buildGroupCols, hw]
  · have hperm := (List.perm_insertionSort (lexAscDesc rowYear RiskRow.accident_count)
      ((groupByKey (fun r => (buildGroupCols levels iw it).map (evalGroupCol r))
          (rows.filter mainFilter)).map
        (fun p => (⟨p.1, p.2.length, avgSeverity p.2⟩ : RiskRow)))).map RiskRow.key
    rw [hperm.nodup_iff, List.map_map]
    exact groupByKey_keys_nodup _ _
  · intro o ho
    have ho' := (List.perm_insertionSort _ _).mem_iff.mp ho
    obtain ⟨p, hp, hmk⟩ := List.mem_map.mp ho'
    obtain ⟨hfil, a, ha, hka⟩ :=
      groupByKey_char (fun r => (buildGroupCols levels iw it).map (evalGroupCol r))
        (rows.filter mainFilter) p hp
    subst hmk
    exact ⟨by rw [← hfil], by rw [← hfil], a, ha, hka⟩
  · intro r hr
    obtain ⟨p, hp, hfst⟩ :=
      groupByKey_covers (fun r => (buildGroupCols levels iw it).map (evalGroupCol r))
        (rows.filter mainFilter) r hr
    refine ⟨⟨p.1, p.2.length, avgSeverity p.2⟩, ?_, hfst⟩
    apply (List.perm_insertionSort _ _).mem_iff.mpr
    exact List.mem_map.mpr ⟨p, hp, rfl⟩
  · exact List.sorted_insertionSort (lexAscDesc rowYear RiskRow.accident_count) _

/-- Claim C1 witness: the hypothesis holds for the schema-only dimension
list `["State"]`, and the conclusion follows at the concrete dataset
`[rowCA2]`. -/
theorem c1_compute_risk_grouping_witness :
    (∀ c ∈ ["State"], c ∈ schema)
    ∧ (∃ out, compute_risk [rowCA2] ["State"] false false = .ok out
        ∧ buildGroupCols ["State"] false false =
            [GroupCol.year] ++ ["State"].map GroupCol.col
              ++ (if false = true ∧ "Weather_Condition" ∉ ["State"]
                  then [GroupCol.col "Weather_Condition"] else [])
              ++ (if false = true then [GroupCol.month, GroupCol.hour] else [])
        ∧ (out.map RiskRow.key).Nodup
        ∧ (∀ o ∈ out,
            o.accident_count = (([rowCA2].filter mainFilter).filter
                (fun r => decide ((buildGroupCols ["State"] false false).map (evalGroupCol r) = o.key))).length
            ∧ o.avg_severity = avgSeverity (([rowCA2].filter mainFilter).filter
                (fun r => decide ((buildGroupCols ["State"] false false).map (evalGroupCol r) = o.key)))
            ∧ ∃ r ∈ [rowCA2].filter mainFilter,
                (buildGroupCols ["State"] false false).map (evalGroupCol r) = o.key)
        ∧ (∀ r ∈ [rowCA2].filter mainFilter,
            ∃ o ∈ out, o.key = (buildGroupCols ["State"] false false).map (evalGroupCol r))
        ∧ out.Pairwise (fun a b =>
            rowYear a < rowYear b ∨ (rowYear a = rowYear b ∧ b.accident_count ≤ a.accident_count))) :=
  ⟨by decide, c1_compute_risk_grouping [rowCA2] ["State"] false false (by decide)⟩

/-- Claim C5: the seasonal aggregation uses exactly the fixed mapping
Dec/Jan/Feb→Winter, Mar/Apr/May→Spring, Jun/Jul/Aug→Summer,
Sep/Oct/Nov→Fall; every real month (1..12) maps to exactly one of the four
seasons; the season counts sum to the number of rows with a non-null
timestamp; the seasonal result is ordered by count descending and the
hourly, daily and monthly results by their natural key ascending. -/
theorem c5_temporal_patterns_seasons :
    ∀ rows : List Row,
      (seasonOfMonth 12 = some "Winter" ∧ seasonOfMonth 1 = some "Winter"
        ∧ seasonOfMonth 2 = some "Winter"
        ∧ seasonOfMonth 3 = some "Spring" ∧ seasonOfMonth 4 = some "Spring"
        ∧ seasonOfMonth 5 = some "Spring"
        ∧ seasonOfMonth 6 = some "Summer" ∧ seasonOfMonth 7 = some "Summer"
        ∧ seasonOfMonth 8 = some "Summer"
        ∧ seasonOfMonth 9 = some "Fall" ∧ seasonOfMonth 10 = some "Fall"
        ∧ seasonOfMonth 11 = some "Fall")
      ∧ (∀ m : Fin 12, ∃ sn, seasonOfMonth (m.val + 1) = some sn
          ∧ sn ∈ ["Winter", "Spring", "Summer", "Fall"])
      ∧ ((compute_temporal_patterns rows).seasonal.map TRow.accident_count).sum
          = (rows.filter tsFilter).length
      ∧ (compute_temporal_patterns rows).seasonal.Pairwise
          (fun a b => b.accident_count ≤ a.accident_count)
      ∧ (compute_temporal_patterns rows).hourly.Pairwise (fun a b => a.key ≤ b.key)
      ∧ (compute_temporal_patterns rows).daily.Pairwise (fun a b => a.key ≤ b.key)
      ∧ (compute_temporal_patterns rows).monthly.Pairwise (fun a b => a.key ≤ b.key) := by
  intro rows
  refine ⟨by decide, by decide, ?_, ?_, ?_, ?_, ?_⟩
  · have hperm := (List.perm_insertionSort (descBy TRow.accident_count)
      (temporalAgg (fun r => seasonOfMonth (monthOf r)) rows)).map TRow.accident_count
    show (List.map TRow.accident_count (List.insertionSort (descBy TRow.accident_count)
      (temporalAgg (fun r => seasonOfMonth (monthOf r)) rows))).sum = _
    rw [hperm.sum_eq]
    show ((List.map _ (List.map _ _)).sum = _)
    rw [List.map_map]
    exact groupByKey_sum_length _ _
  · exact List.sorted_insertionSort (descBy TRow.accident_count) _
  · exact List.sorted_insertionSort (ascBy TRow.key) _
  · exact List.sorted_insertionSort (ascBy TRow.key) _
  · exact List.sorted_insertionSort (ascBy TRow.key) _

/-- Claim C9 (code bug): on a typed non-empty table the unguarded
missing-value loop compares the TIMESTAMP `Start_Time` column to `''`,
DuckDB raises a Conversion Error casting the literal, and `validate_data`
raises instead of returning a report — even though key columns
(`Severity`, `Weather_Condition`) are absent from this schema and the
claim promises a report with those checks unavailable and the present
checks computed. -/
theorem c9_validate_conversion_error_on_typed_columns :
    validate_data ["ID", "Start_Time", "State"] [rowCA2]
      = .error (.conversionError "Start_Time") := by
  decide

/-! ### Lemmas about the weather-risk window computation -/

theorem assignRanks_length (t : ℚ) :
    ∀ (i : Nat) (l : List WAgg), (assignRanks t i l).length = l.length := by
  intro i l
  induction l generalizing i with
  | nil => rfl
  | cons w l ih => simp [assignRanks, ih]

theorem assignRanks_map_rank (t : ℚ) :
    ∀ (i : Nat) (l : List WAgg),
      (assignRanks t i l).map WRow.weather_rank = List.range' i l.length := by
  intro i l
  induction l generalizing i with
  | nil => rfl
  | cons w l ih => simp [assignRanks, List.range'_succ, ih]

theorem assignRanks_map_count (t : ℚ) :
    ∀ (i : Nat) (l : List WAgg),
      (assignRanks t i l).map WRow.accident_count = l.map WAgg.accident_count := by
  intro i l
  induction l generalizing i with
  | nil => rfl
  | cons w l ih => simp [assignRanks, ih]

theorem assignRanks_map_weather (t : ℚ) :
    ∀ (i : Nat) (l : List WAgg),
      (assignRanks t i l).map WRow.weather = l.map WAgg.weather := by
  intro i l
  induction l generalizing i with
  | nil => rfl
  | cons w l ih => simp [assignRanks, ih]

theorem assignRanks_map_perc (t : ℚ) :
    ∀ (i : Nat) (l : List WAgg),
      (assignRanks t i l).map WRow.state_percentage
        = l.map (fun w => (w.accident_count * 100 : ℚ) / t) := by
  intro i l
  induction l generalizing i with
  | nil => rfl
  | cons w l ih => simp [assignRanks, ih]

theorem assignRanks_rank_ge (t : ℚ) :
    ∀ (i : Nat) (l : List WAgg) (r : WRow), r ∈ assignRanks t i l → i ≤ r.weather_rank := by
  intro i l
  induction l generalizing i with
  | nil => intro r hr; simp [assignRanks] at hr
  | cons w l ih =>
    intro r hr
    rcases List.mem_cons.mp hr with h | h
    · subst h; exact le_rfl
    · exact Nat.le_of_succ_le (ih (i + 1) r h)

theorem assignRanks_mem_char (t : ℚ) :
    ∀ (i : Nat) (l : List WAgg) (r : WRow), r ∈ assignRanks t i l →
      ∃ w ∈ l, r.state = w.state ∧ r.weather = w.weather
        ∧ r.accident_count = w.accident_count
        ∧ r.state_percentage = (w.accident_count * 100 : ℚ) / t := by
  intro i l
  induction l generalizing i with
  | nil => intro r hr; simp [assignRanks] at hr
  | cons w l ih =>
    intro r hr
    rcases List.mem_cons.mp hr with h | h
    · subst h; exact ⟨w, List.mem_cons_self w l, rfl, rfl, rfl, rfl⟩
    · obtain ⟨w', hw', hrest⟩ := ih (i + 1) r h
      exact ⟨w', List.mem_cons_of_mem w hw', hrest⟩

theorem sum_map_perc (t : ℚ) (l : List WAgg) :
    (l.map (fun w => (w.accident_count * 100 : ℚ) / t)).sum
      = (((l.map WAgg.accident_count).sum : ℕ) : ℚ) * 100 / t := by
  induction l with
  | nil => simp
  | cons w l ih =>
    simp only [List.map_cons, List.sum_cons, ih, Nat.cast_add, add_mul, add_div]

theorem weatherAggs_count_pos (rows : List Row) :
    ∀ w ∈ weatherAggs rows, 1 ≤ w.accident_count := by
  intro w hw
  obtain ⟨q, hq, hmk⟩ := List.mem_map.mp hw
  have hne := groupByKey_groups_ne_nil _ _ q hq
  subst hmk
  exact List.length_pos.mpr hne

theorem weatherAggs_pairs_nodup (rows : List Row) :
    ((weatherAggs rows).map (fun w => (w.state, w.weather))).Nodup := by
  rw [weatherAggs, List.map_map]
  exact groupByKey_keys_nodup _ _

/-- Filtering the flattened blocks by one block's key recovers exactly
that block, when blocks have pairwise-distinct keys and homogeneous
rows. -/
theorem flatten_filter_blocks {β : Type} (f : β → String) :
    ∀ (bs : List (String × List β)),
      ((bs.map Prod.fst).Nodup) →
      (∀ p ∈ bs, ∀ r ∈ p.2, f r = p.1) →
      ∀ (s : String) (block : List β), (s, block) ∈ bs →
        ((bs.map Prod.snd).flatten).filter (fun r => decide (f r = s)) = block := by
  intro bs
  induction bs with
  | nil => intro _ _ s block h; simp at h
  | cons p rest ih =>
    intro hnd hst s block hmem
    simp only [List.map_cons, List.flatten_cons, List.filter_append]
    have hnd' : ((rest.map Prod.fst).Nodup) := (List.nodup_cons.mp hnd).2
    have hnotmem : p.1 ∉ rest.map Prod.fst := (List.nodup_cons.mp hnd).1
    rcases List.mem_cons.mp hmem with heq | hrest
    · have hp1 : p.1 = s := by rw [← heq]
      have hp2 : p.2 = block := by rw [← heq]
      have hfull : p.2.filter (fun r => decide (f r = s)) = p.2 := by
        apply List.filter_eq_self.mpr
        intro r hr
        simp [hst p (List.mem_cons_self p rest) r hr, hp1]
      have hempty : ((rest.map Prod.snd).flatten).filter (fun r => decide (f r = s)) = [] := by
        apply List.filter_eq_nil_iff.mpr
        intro r hr
        obtain ⟨l, hl, hrl⟩ := List.mem_flatten.mp hr
        obtain ⟨q, hq, hql⟩ := List.mem_map.mp hl
        have hfr : f r = q.1 := hst q (List.mem_cons_of_mem p hq) r (hql ▸ hrl)
        have hq1 : q.1 ≠ s := by
          intro hcontra
          exact hnotmem (hp1 ▸ hcontra ▸ List.mem_map.mpr ⟨q, hq, rfl⟩)
        simp [hfr, hq1]
      rw [hfull, hempty, hp2, List.append_nil]
    · have hsin : s ∈ rest.map Prod.fst := List.mem_map.mpr ⟨(s, block), hrest, rfl⟩
      have hp1 : p.1 ≠ s := fun hcontra => hnotmem (hcontra ▸ hsin)
      have hempty : p.2.filter (fun r => decide (f r = s)) = [] := by
        apply List.filter_eq_nil_iff.mpr
        intro r hr
        simp [hst p (List.mem_cons_self p rest) r hr, hp1]
      rw [hempty, List.nil_append]
      exact ih hnd' (fun q hq => hst q (List.mem_cons_of_mem p hq)) s block hrest

theorem weatherBlocks_keys_nodup (rows : List Row) :
    ((weatherBlocks rows).map Prod.fst).Nodup := by
  rw [weatherBlocks, List.map_map]
  have hperm := (List.perm_insertionSort (ascBy (fun p : String × List WAgg => p.1))
    (groupByKey WAgg.state (weatherAggs rows))).map
    (Prod.fst ∘ fun p : String × List WAgg => (p.1, weatherRows p.2))
  exact hperm.nodup_iff.mpr (groupByKey_keys_nodup _ _)

theorem weatherBlocks_state_homogeneous (rows : List Row) :
    ∀ q ∈ weatherBlocks rows, ∀ r ∈ q.2, r.state = q.1 := by
  intro q hq r hr
  obtain ⟨p, hpsort, hmk⟩ := List.mem_map.mp hq
  have hp : p ∈ groupByKey WAgg.state (weatherAggs rows) :=
    (List.perm_insertionSort _ _).mem_iff.mp hpsort
  obtain ⟨hfil, _, _, _⟩ := groupByKey_char WAgg.state (weatherAggs rows) p hp
  subst hmk
  obtain ⟨w, hw, hstate, _⟩ := assignRanks_mem_char _ _ _ r hr
  have hw' : w ∈ p.2 := (List.perm_insertionSort _ _).mem_iff.mp hw
  have hw2 : w ∈ List.filter (fun b => decide (b.state = p.1)) (weatherAggs rows) := by
    rw [← hfil]; exact hw'
  have hd := List.of_mem_filter hw2
  simp only [decide_eq_true_eq] at hd
  rw [hstate]
  exact hd

/-- Claim C3: for each state block of `compute_weather_risk` output, every
row of the block carries that state, the weathers are pairwise distinct
(k distinct conditions), the `weather_rank` values are exactly 1..k, the
rank-1 row has the maximum count, each row's percentage is its count × 100
divided by the state's total count, and the percentages sum to exactly
100; filtering the full output by the state recovers exactly the block. -/
theorem c3_weather_rank_percentage :
    ∀ (rows : List Row) (s : String) (block : List WRow),
      (s, block) ∈ weatherBlocks rows →
      (compute_weather_risk rows).filter (fun r => decide (r.state = s)) = block
      ∧ (∀ r ∈ block, r.state = s)
      ∧ (block.map WRow.weather).Nodup
      ∧ block.map WRow.weather_rank = List.range' 1 block.length
      ∧ (∀ r ∈ block, r.weather_rank = 1 → ∀ r' ∈ block, r'.accident_count ≤ r.accident_count)
      ∧ (∀ r ∈ block, r.state_percentage
          = (r.accident_count * 100 : ℚ) / (((block.map WRow.accident_count).sum : ℕ) : ℚ))
      ∧ (block.map WRow.state_percentage).sum = 100 := by
  intro rows s block hmem
  have h1 : (compute_weather_risk rows).filter (fun r => decide (r.state = s)) = block :=
    flatten_filter_blocks WRow.state (weatherBlocks rows) (weatherBlocks_keys_nodup rows)
      (weatherBlocks_state_homogeneous rows) s block hmem
  obtain ⟨p, hpsort, hmk⟩ := List.mem_map.mp hmem
  have hp : p ∈ groupByKey WAgg.state (weatherAggs rows) :=
    (List.perm_insertionSort _ _).mem_iff.mp hpsort
  obtain ⟨hfil, w0, hw0, hkw0⟩ := groupByKey_char WAgg.state (weatherAggs rows) p hp
  have hne : p.2 ≠ [] := groupByKey_groups_ne_nil _ _ p hp
  have hsperm : List.insertionSort (descBy WAgg.accident_count) p.2 |>.Perm p.2 :=
    List.perm_insertionSort _ _
  have hb : weatherRows p.2 = block := congrArg Prod.snd hmk
  have hblock : block = assignRanks ((((p.2.map WAgg.accident_count).sum : ℕ)) : ℚ) 1
      (List.insertionSort (descBy WAgg.accident_count) p.2) := hb.symm
  have hsumeq : (block.map WRow.accident_count).sum = (p.2.map WAgg.accident_count).sum := by
    rw [hblock, assignRanks_map_count]
    exact (hsperm.map WAgg.accident_count).sum_eq
  have hgrpstate : ∀ w ∈ p.2, w.state = p.1 := by
    intro w hw
    have hw2 : w ∈ List.filter (fun b => decide (b.state = p.1)) (weatherAggs rows) := by
      rw [← hfil]; exact hw
    have hd := List.of_mem_filter hw2
    simpa using hd
  have hcnt : ∀ w ∈ p.2, 1 ≤ w.accident_count := by
    intro w hw
    have hw2 : w ∈ List.filter (fun b => decide (b.state = p.1)) (weatherAggs rows) := by
      rw [← hfil]; exact hw
    exact weatherAggs_count_pos rows w (List.mem_of_mem_filter hw2)
  have hsum_pos : 0 < (p.2.map WAgg.accident_count).sum := by
    rcases p2eq : p.2 with _ | ⟨w, l⟩
    · exact absurd p2eq hne
    · have hc1 := hcnt w (by rw [p2eq]; exact List.mem_cons_self w l)
      simp only [List.map_cons, List.sum_cons]
      omega
  refine ⟨h1, ?_, ?_, ?_, ?_, ?_, ?_⟩
  · intro r hr
    exact weatherBlocks_state_homogeneous rows (s, block) hmem r hr
  · have hsub : p.2.Sublist (weatherAggs rows) := by
      rw [hfil]; exact List.filter_sublist _
    have hpairs : ((p.2).map (fun w => (w.state, w.weather))).Nodup :=
      List.Nodup.sublist (hsub.map _) (weatherAggs_pairs_nodup rows)
    have hmapeq : (p.2).map (fun w => (w.state, w.weather))
        = (p.2).map (fun w => (p.1, w.weather)) :=
      List.map_congr_left (fun w hw => by rw [hgrpstate w hw])
    have hpairs2 : ((p.2).map (fun w => (p.1, w.weather))).Nodup := hmapeq ▸ hpairs
    have hcomp : ((p.2).map WAgg.weather).map (Prod.mk p.1)
        = (p.2).map (fun w => (p.1, w.weather)) := by
      rw [List.map_map]
      rfl
    have hwnodup : ((p.2).map WAgg.weather).Nodup :=
      List.Nodup.of_map _ (hcomp ▸ hpairs2)
    rw [hblock, assignRanks_map_weather]
    exact ((hsperm.map WAgg.weather).nodup_iff).mpr hwnodup
  · rw [hblock, assignRanks_map_rank, assignRanks_length]
  · intro r hr h1r r' hr'
    rw [hblock] at hr hr'
    rcases hsortedeq : List.insertionSort (descBy WAgg.accident_count) p.2 with _ | ⟨w, ws⟩
    · rw [hsortedeq] at hr; simp [assignRanks] at hr
    · rw [hsortedeq] at hr hr'
      simp only [assignRanks] at hr hr'
      rcases List.mem_cons.mp hr with hre | hrt
      · rcases List.mem_cons.mp hr' with hre' | hrt'
        · rw [hre', hre]
        · obtain ⟨w', hw', _, _, hcnt', _⟩ := assignRanks_mem_char _ _ _ r' hrt'
          have hsorted := List.sorted_insertionSort (descBy WAgg.accident_count) p.2
          rw [hsortedeq] at hsorted
          have hle := List.rel_of_sorted_cons hsorted w' hw'
          rw [hre, hcnt']
          exact hle
      · have hge := assignRanks_rank_ge _ _ _ r hrt
        rw [h1r] at hge
        omega
  · intro r hr
    rw [hsumeq]
    rw [hblock] at hr
    obtain ⟨w, hw, _, _, hcnt', hperc⟩ := assignRanks_mem_char _ _ _ r hr
    rw [hperc, hcnt']
  · rw [hblock, assignRanks_map_perc, sum_map_perc]
    have hseq : ((List.insertionSort (descBy WAgg.accident_count) p.2).map
        WAgg.accident_count).sum = (p.2.map WAgg.accident_count).sum :=
      (hsperm.map _).sum_eq
    rw [hseq]
    have hne0 : ((((p.2.map WAgg.accident_count).sum : ℕ)) : ℚ) ≠ 0 := by
      exact_mod_cast Nat.pos_iff_ne_zero.mp hsum_pos
    exact mul_div_cancel_left₀ 100 hne0

/-- The single (state "CA") output block `compute_weather_risk` produces
on the one-row dataset `[rowCA2]`. -/
def wBlockCA : List WRow :=
  [⟨"CA", "Clear", 1, avgSeverity [rowCA2], ((1 : ℕ) * 100 : ℚ) / (((1 : ℕ) : ℚ)), 1⟩]

/-- Claim C3 witness: on `[rowCA2]` the "CA" block is in
`weatherBlocks`, and all the rank / percentage properties hold for it. -/
theorem c3_weather_rank_percentage_witness :
    ("CA", wBlockCA) ∈ weatherBlocks [rowCA2]
    ∧ ((compute_weather_risk [rowCA2]).filter (fun r => decide (r.state = "CA")) = wBlockCA
      ∧ (∀ r ∈ wBlockCA, r.state = "CA")
      ∧ (wBlockCA.map WRow.weather).Nodup
      ∧ wBlockCA.map WRow.weather_rank = List.range' 1 wBlockCA.length
      ∧ (∀ r ∈ wBlockCA, r.weather_rank = 1 →
          ∀ r' ∈ wBlockCA, r'.accident_count ≤ r.accident_count)
      ∧ (∀ r ∈ wBlockCA, r.state_percentage
          = (r.accident_count * 100 : ℚ) / (((wBlockCA.map WRow.accident_count).sum : ℕ) : ℚ))
      ∧ (wBlockCA.map WRow.state_percentage).sum = 100) := by
  have hmem : ("CA", wBlockCA) ∈ weatherBlocks [rowCA2] := List.mem_cons_self _ _
  exact ⟨hmem, c3_weather_rank_percentage [rowCA2] "CA" wBlockCA hmem⟩
